import Mathlib

/-!
Shallow embedding of the descriptor-table layer of
`src/chromeapps/ssh_client/src/file_system.cc`.

The `streams_` member (`std::map<int, FileStream*>`) is modelled as an
association list `List (Nat × Slot)` with no duplicate keys in canonical use;
a stored `NULL` pointer is `Slot.reserved`, the sentinel `kBadFileStream`
(`(FileStream*)-1`) is `Slot.bad`, and a live `FileStream*` is `Slot.str r`
where `r` identifies the underlying resource.  The `paths_`, `hosts_` and
`addrs_` maps are modelled the same way.  Backend behaviour (path handlers,
`FileStream` virtual methods, `TCPSocket::connect`) lives outside this file in
the C++ program as well; it is abstracted into an `Env` record of functions.
Calls the C++ code makes on streams that matter to the claims (close/release,
the null-pointer call in `dup2`, the TCP connection attempt) are recorded as an
event trace.
-/

namespace SshClient

/-- POSIX-style error identifiers returned by the file-system layer. -/
inductive Errno where
  | ENOENT
  | EACCES
  | EBADF
  | ECONNREFUSED
  deriving DecidableEq

/-- One slot of the descriptor table `streams_`: a stored `NULL` pointer
(`reserved`, a descriptor claimed during an in-progress allocation), the
`kBadFileStream` sentinel (`bad`), or a live stream (`str r`, identified by its
underlying resource id). -/
inductive Slot where
  | reserved
  | bad
  | str (r : Nat)
  deriving DecidableEq

/-- The pointer value produced by `FileSystem::GetStream`: `NULL` (absent or
reserved slot), the bad sentinel, or a live stream. -/
inductive StreamPtr where
  | null
  | bad
  | str (r : Nat)
  deriving DecidableEq

/-- Observable events: stream close/release calls, the null-pointer method
call that `dup2` makes in its inverted branch, and TCP connection attempts. -/
inductive Ev where
  | closed (r : Nat)
  | released (r : Nat)
  | nullClose
  | connectAttempt (host : String) (port : Nat)
  deriving DecidableEq

/-- Association-list lookup, modelling `std::map::find`. -/
def alookup {α β : Type} [DecidableEq α] : List (α × β) → α → Option β
  | [], _ => none
  | (k, v) :: t, a => if k = a then some v else alookup t a

/-- Association-list insert-or-assign, modelling `map[k] = v`. -/
def ainsert {α β : Type} [DecidableEq α] : List (α × β) → α → β → List (α × β)
  | [], a, b => [(a, b)]
  | (k, v) :: t, a, b => if k = a then (a, b) :: t else (k, v) :: ainsert t a b

/-- Association-list erase, modelling `std::map::erase`. -/
def aerase {α β : Type} [DecidableEq α] : List (α × β) → α → List (α × β)
  | [], _ => []
  | (k, v) :: t, a => if k = a then aerase t a else (k, v) :: aerase t a

/-- The mutable state of a `FileSystem` instance: the descriptor table
`streams_`, the registered paths of `paths_` (handler behaviour is in `Env`),
the host tables `hosts_`/`addrs_`, and the counter `first_unused_addr_`. -/
structure FsState where
  streams : List (Nat × Slot)
  paths : List String
  hosts : List (String × Nat)
  addrs : List (Nat × String)
  firstUnusedAddr : Nat
  deriving DecidableEq

/-- Behaviour of the external collaborators (path handlers, `FileStream`
virtual methods, the TCP backend), which live outside `file_system.cc`. -/
structure Env where
  handlerOpen : String → Nat → Option Nat
  dupStream : Nat → Nat → Option Nat
  readRet : Nat → Nat
  writeRet : Nat → Nat
  seekRet : Nat → Nat
  fstatRet : Nat → Nat
  getdentsRet : Nat → Nat
  isattyRet : Nat → Nat
  fcntlRet : Nat → Nat
  ioctlRet : Nat → Nat
  readReady : Nat → Bool
  writeReady : Nat → Bool
  exceptReady : Nat → Bool
  tcpConnect : String → Nat → Bool
  newTcpRes : Nat → Nat

/-- Modelled from the spec: the constant `kFileIDOffset` is declared in
`file_system.h`, which is not among the provided sources.  The spec fixes only
that allocation starts at a fixed offset and that descriptors 0-2 are never
allocation candidates, so the smallest conforming offset is used. -/
def kFileIDOffset : Nat := 3

/-- `FileSystem::IsKnowDescriptor`: `streams_.find(fd) != streams_.end()`. -/
def IsKnowDescriptor (t : List (Nat × Slot)) (fd : Nat) : Bool :=
  (alookup t fd).isSome

/-- Fuel-driven loop body of `FileSystem::GetFirstUnusedDescriptor`:
`while (IsKnowDescriptor(fd)) fd++`.  The loop makes at most `t.length`
increments (each tested `fd` that is known is a distinct key of `t`), so fuel
`t.length + 1` suffices to reach the first unused descriptor. -/
def gfudGo (t : List (Nat × Slot)) : Nat → Nat → Nat
  | 0, fd => fd
  | fuel + 1, fd => if IsKnowDescriptor t fd then gfudGo t fuel (fd + 1) else fd

/-- `FileSystem::GetFirstUnusedDescriptor`. -/
def GetFirstUnusedDescriptor (t : List (Nat × Slot)) : Nat :=
  gfudGo t (t.length + 1) kFileIDOffset

/-- `FileSystem::AddFileStream`: `streams_[fd] = stream`.  (The source asserts
that the slot is absent or holds `NULL`; the map assignment itself
insert-or-assigns.) -/
def AddFileStream (t : List (Nat × Slot)) (fd : Nat) (s : Slot) : List (Nat × Slot) :=
  ainsert t fd s

/-- `FileSystem::RemoveFileStream`: `streams_.erase(fd)`.  (The source asserts
that the slot is present.) -/
def RemoveFileStream (t : List (Nat × Slot)) (fd : Nat) : List (Nat × Slot) :=
  aerase t fd

/-- `FileSystem::GetStream`: returns the stored pointer, or `NULL` when the
descriptor is absent. -/
def GetStream (t : List (Nat × Slot)) (fd : Nat) : StreamPtr :=
  match alookup t fd with
  | none => StreamPtr.null
  | some Slot.reserved => StreamPtr.null
  | some Slot.bad => StreamPtr.bad
  | some (Slot.str r) => StreamPtr.str r

/-- `FileSystem::open` (named `fsOpen` because `open` is a Lean keyword):
path-registry lookup, `ENOENT` on miss; otherwise reserve the first unused
descriptor, ask the handler for a stream, release the reservation and return
`EACCES` on handler failure, else bind the stream and return the descriptor. -/
def fsOpen (env : Env) (st : FsState) (pathname : String) :
    Except Errno Nat × FsState :=
  if st.paths.contains pathname = false then
    (Except.error Errno.ENOENT, st)
  else
    let fd := GetFirstUnusedDescriptor st.streams
    let t1 := AddFileStream st.streams fd Slot.reserved
    match env.handlerOpen pathname fd with
    | none => (Except.error Errno.EACCES, { st with streams := RemoveFileStream t1 fd })
    | some r => (Except.ok fd, { st with streams := AddFileStream t1 fd (Slot.str r) })

/-- `FileSystem::close`: `EBADF` if the descriptor is unknown; close and
release the stream when it is live (not `NULL`, not the bad sentinel); always
erase the slot. -/
def close (st : FsState) (fd : Nat) : Except Errno Unit × FsState × List Ev :=
  if IsKnowDescriptor st.streams fd = false then
    (Except.error Errno.EBADF, st, [])
  else
    match GetStream st.streams fd with
    | StreamPtr.str r =>
        (Except.ok (), { st with streams := RemoveFileStream st.streams fd },
          [Ev.closed r, Ev.released r])
    | _ =>
        (Except.ok (), { st with streams := RemoveFileStream st.streams fd }, [])

/-- `FileSystem::read`: delegate when the slot holds a live stream, else
`EBADF`. -/
def read (env : Env) (st : FsState) (fd : Nat) : Except Errno Nat × FsState :=
  match GetStream st.streams fd with
  | StreamPtr.str r => (Except.ok (env.readRet r), st)
  | _ => (Except.error Errno.EBADF, st)

/-- `FileSystem::write`. -/
def write (env : Env) (st : FsState) (fd : Nat) : Except Errno Nat × FsState :=
  match GetStream st.streams fd with
  | StreamPtr.str r => (Except.ok (env.writeRet r), st)
  | _ => (Except.error Errno.EBADF, st)

/-- `FileSystem::seek`. -/
def seek (env : Env) (st : FsState) (fd : Nat) : Except Errno Nat × FsState :=
  match GetStream st.streams fd with
  | StreamPtr.str r => (Except.ok (env.seekRet r), st)
  | _ => (Except.error Errno.EBADF, st)

/-- `FileSystem::fstat`. -/
def fstat (env : Env) (st : FsState) (fd : Nat) : Except Errno Nat × FsState :=
  match GetStream st.streams fd with
  | StreamPtr.str r => (Except.ok (env.fstatRet r), st)
  | _ => (Except.error Errno.EBADF, st)

/-- `FileSystem::getdents`. -/
def getdents (env : Env) (st : FsState) (fd : Nat) : Except Errno Nat × FsState :=
  match GetStream st.streams fd with
  | StreamPtr.str r => (Except.ok (env.getdentsRet r), st)
  | _ => (Except.error Errno.EBADF, st)

/-- `FileSystem::isatty` (returns 0 with `errno = EBADF` on a dead slot). -/
def isatty (env : Env) (st : FsState) (fd : Nat) : Except Errno Nat × FsState :=
  match GetStream st.streams fd with
  | StreamPtr.str r => (Except.ok (env.isattyRet r), st)
  | _ => (Except.error Errno.EBADF, st)

/-- `FileSystem::fcntl` (returns -1 with `errno = EBADF` on a dead slot). -/
def fcntl (env : Env) (st : FsState) (fd : Nat) : Except Errno Nat × FsState :=
  match GetStream st.streams fd with
  | StreamPtr.str r => (Except.ok (env.fcntlRet r), st)
  | _ => (Except.error Errno.EBADF, st)

/-- `FileSystem::ioctl` (returns -1 with `errno = EBADF` on a dead slot). -/
def ioctl (env : Env) (st : FsState) (fd : Nat) : Except Errno Nat × FsState :=
  match GetStream st.streams fd with
  | StreamPtr.str r => (Except.ok (env.ioctlRet r), st)
  | _ => (Except.error Errno.EBADF, st)

/-- `FileSystem::dup`: `EBADF` unless the source holds a live stream; reserve
a fresh descriptor, ask the stream for a duplicate, release the reservation
and return `EACCES` on failure, else bind the duplicate. -/
def dup (env : Env) (st : FsState) (fd : Nat) : Except Errno Nat × FsState :=
  match GetStream st.streams fd with
  | StreamPtr.str r =>
      let newfd := GetFirstUnusedDescriptor st.streams
      let t1 := AddFileStream st.streams newfd Slot.reserved
      match env.dupStream r newfd with
      | none => (Except.error Errno.EACCES, { st with streams := RemoveFileStream t1 newfd })
      | some r2 => (Except.ok newfd, { st with streams := AddFileStream t1 newfd (Slot.str r2) })
  | _ => (Except.error Errno.EBADF, st)

/-- Result of `FileSystem::dup2`, including the undefined-behaviour outcome of
its inverted branch. -/
inductive Dup2Res where
  | ok
  | ebadf
  | eacces
  | nullCall
  deriving DecidableEq

/-- `FileSystem::dup2`, translated branch for branch.  The source checks
`if (stream == kBadFileStream)` a second time (dead: the first check already
returned) and then runs `else if (!new_stream) { new_stream->close();
new_stream->release(); RemoveFileStream(newfd); }` — i.e. when the target
lookup yields `NULL` it invokes `close()` through that null pointer; this is
modelled as the terminal outcome `nullCall` with event `nullClose`.  When the
target lookup is non-null (live stream or bad sentinel) the branch is skipped
and the target slot is overwritten without any close/release. -/
def dup2 (env : Env) (st : FsState) (fd newfd : Nat) : Dup2Res × FsState × List Ev :=
  match GetStream st.streams fd with
  | StreamPtr.null => (Dup2Res.ebadf, st, [])
  | StreamPtr.bad => (Dup2Res.ebadf, st, [])
  | StreamPtr.str r =>
    match GetStream st.streams newfd with
    | StreamPtr.null => (Dup2Res.nullCall, st, [Ev.nullClose])
    | _ =>
        let t1 := AddFileStream st.streams newfd Slot.reserved
        match env.dupStream r newfd with
        | none => (Dup2Res.eacces, { st with streams := t1 }, [])
        | some r2 => (Dup2Res.ok, { st with streams := AddFileStream t1 newfd (Slot.str r2) }, [])

/-- `FileSystem::socket`: reserve the first unused descriptor by storing
`NULL` (`AddFileStream(fd, NULL)` under the comment "mark descriptor as
used") and return it. -/
def socket (st : FsState) : Nat × FsState :=
  let fd := GetFirstUnusedDescriptor st.streams
  (fd, { st with streams := AddFileStream st.streams fd Slot.reserved })

/-- `htonl` on the (little-endian) NaCl host: 32-bit byte swap. -/
def htonl (x : Nat) : Nat :=
  let y := x % 4294967296
  y % 256 * 16777216 + y / 256 % 256 * 65536 + y / 65536 % 256 * 256 + y / 16777216 % 256

/-- `inet_ntoa` applied to a network-order 32-bit value stored little-endian:
dotted quad, least significant byte first in memory. -/
def inetNtoa (addr : Nat) : String :=
  toString (addr % 256) ++ "." ++ toString (addr / 256 % 256) ++ "." ++
    toString (addr / 65536 % 256) ++ "." ++ toString (addr / 16777216 % 256)

/-- `FileSystem::AddHostAddress`: `addr = htonl(addr); hosts_[name] = addr;
addrs_[addr] = name;`. -/
def AddHostAddress (st : FsState) (name : String) (addr : Nat) : FsState :=
  { st with hosts := ainsert st.hosts name (htonl addr),
            addrs := ainsert st.addrs (htonl addr) name }

/-- `FileSystem::gethostbyname`: return an existing mapping, else synthesize
`htonl(first_unused_addr_++)`, insert both directions and return it. -/
def gethostbyname (st : FsState) (name : String) : Nat × FsState :=
  match alookup st.hosts name with
  | some a => (a, st)
  | none =>
    let a := htonl st.firstUnusedAddr
    (a, { st with hosts := ainsert st.hosts name a,
                  addrs := ainsert st.addrs a name,
                  firstUnusedAddr := st.firstUnusedAddr + 1 })

/-- `FileSystem::connect`: `EBADF` when the descriptor is absent from the
table; resolve the address through `addrs_` with `inet_ntoa` fallback; build a
`TCPSocket` and attempt the connection; on failure release the socket and
return `ECONNREFUSED` leaving the table untouched; on success bind it. -/
def connect (env : Env) (st : FsState) (fd addr port : Nat) :
    Except Errno Unit × FsState × List Ev :=
  if (alookup st.streams fd).isNone then
    (Except.error Errno.EBADF, st, [])
  else
    let host := match alookup st.addrs addr with
      | some name => name
      | none => inetNtoa addr
    let sock := env.newTcpRes fd
    if env.tcpConnect host port then
      (Except.ok (), { st with streams := AddFileStream st.streams fd (Slot.str sock) },
        [Ev.connectAttempt host port])
    else
      (Except.error Errno.ECONNREFUSED, st,
        [Ev.connectAttempt host port, Ev.released sock])

/-- `FD_ISSET` on an fd_set modelled as a list of bits. -/
def FDISSET (fds : List Bool) (i : Nat) : Bool :=
  fds.getD i false

/-- `FD_CLR`. -/
def FDCLR (fds : List Bool) (i : Nat) : List Bool :=
  fds.set i false

/-- Loop body of `FileSystem::IsReady`, iterating `i` over `[i, i+rem)` with
accumulator `nset`.  A set member whose `GetStream` is `NULL` returns -1.  A
member bound to the bad sentinel is also folded into the -1 outcome here; in
the C++ source that case would call `is_ready` through the invalid sentinel
pointer, so the theorems below exclude it by hypothesis.  In check mode
(`app = false`) the first ready member returns 1; in apply mode
(`app = true`) ready members are counted and unready members are cleared
with `FD_CLR`. -/
def isReadyGo (t : List (Nat × Slot)) (ready : Nat → Bool) (app : Bool) :
    Nat → Nat → Nat → List Bool → Int × List Bool
  | _, 0, nset, fds => ((nset : Int), fds)
  | i, rem + 1, nset, fds =>
    if FDISSET fds i then
      match GetStream t i with
      | StreamPtr.null => (-1, fds)
      | StreamPtr.bad => (-1, fds)
      | StreamPtr.str r =>
        if ready r then
          if app then isReadyGo t ready app (i + 1) rem (nset + 1) fds
          else (1, fds)
        else
          if app then isReadyGo t ready app (i + 1) rem nset (FDCLR fds i)
          else isReadyGo t ready app (i + 1) rem nset fds
    else isReadyGo t ready app (i + 1) rem nset fds

/-- `FileSystem::IsReady`: a null fd_set yields 0 immediately. -/
def IsReady (t : List (Nat × Slot)) (ready : Nat → Bool) (nfds : Nat)
    (ofds : Option (List Bool)) (app : Bool) : Int × Option (List Bool) :=
  match ofds with
  | none => (0, none)
  | some fds =>
      let p := isReadyGo t ready app 0 nfds 0 fds
      (p.1, some p.2)

/-- Outcome of `FileSystem::select` under a fixed readiness assignment:
`ret n r w e` models a successful return with count `n` and the mutated sets,
`err` models `errno = EBADF; return -1`, and `block` models the indefinite
wait taken when nothing is ready and no timeout was supplied. -/
inductive SelectResult where
  | ret (n : Nat) (r w e : Option (List Bool))
  | err
  | block
  deriving DecidableEq

/-- `FileSystem::select` under a fixed readiness assignment (readiness is
re-evaluated on every wakeup in the source; with readiness fixed the wait
loop either exits at once — any check nonzero, including the truthy -1 of a
dead descriptor — or, with a timeout, exits via `ETIMEDOUT`; without a
timeout it waits forever, modelled as `block`).  The apply passes then
recompute each set, failing with `EBADF` when any pass sees a dead
descriptor, else returning the total ready count. -/
def select (env : Env) (st : FsState) (nfds : Nat)
    (readfds writefds exceptfds : Option (List Bool)) (hasTimeout : Bool) :
    SelectResult :=
  let cR := (IsReady st.streams env.readReady nfds readfds false).1
  let cW := (IsReady st.streams env.writeReady nfds writefds false).1
  let cE := (IsReady st.streams env.exceptReady nfds exceptfds false).1
  if cR = 0 ∧ cW = 0 ∧ cE = 0 ∧ hasTimeout = false then SelectResult.block
  else
    let pR := IsReady st.streams env.readReady nfds readfds true
    let pW := IsReady st.streams env.writeReady nfds writefds true
    let pE := IsReady st.streams env.exceptReady nfds exceptfds true
    if pR.1 < 0 ∨ pW.1 < 0 ∨ pE.1 < 0 then SelectResult.err
    else SelectResult.ret (pR.1 + pW.1 + pE.1).toNat pR.2 pW.2 pE.2

/-- Readiness of position `i` as the apply pass of `IsReady` sees it: true
exactly when the slot holds a live stream that reports ready. -/
def readyBit (t : List (Nat × Slot)) (ready : Nat → Bool) (i : Nat) : Bool :=
  match GetStream t i with
  | StreamPtr.str r => ready r
  | _ => false

/-- Specification-side count of ready members of a set over `[i, i+rem)`. -/
def countReadyFrom (t : List (Nat × Slot)) (ready : Nat → Bool)
    (fds : List Bool) : Nat → Nat → Nat
  | _, 0 => 0
  | i, rem + 1 =>
    (if FDISSET fds i && readyBit t ready i then 1 else 0) +
      countReadyFrom t ready fds (i + 1) rem

/-- Whether a `GetStream` result is a live stream pointer (used as a
decidable hypothesis form in the select theorems). -/
def StreamPtr.isStr : StreamPtr → Bool
  | StreamPtr.str _ => true
  | _ => false

/-! ### Demonstration states and environments used by witnesses -/

/-- A small concrete table: stdin/stdout/stderr bound, descriptor 3 bound to
the bad sentinel; `/dev/null` registered; `localhost` pre-seeded with the
loopback address (`htonl 0x7F000001 = 16777343`). -/
def demoSt : FsState :=
  { streams := [(0, Slot.str 0), (1, Slot.str 1), (2, Slot.str 2), (3, Slot.bad)],
    paths := ["/dev/null"],
    hosts := [("localhost", 16777343)],
    addrs := [(16777343, "localhost")],
    firstUnusedAddr := 2147483648 }

/-- A concrete environment in which every backend operation succeeds and
duplicates share the source resource. -/
def env0 : Env :=
  { handlerOpen := fun _ fd => some (100 + fd),
    dupStream := fun r _ => some r,
    readRet := fun r => r, writeRet := fun r => r, seekRet := fun r => r,
    fstatRet := fun r => r, getdentsRet := fun r => r, isattyRet := fun r => r,
    fcntlRet := fun r => r, ioctlRet := fun r => r,
    readReady := fun _ => true, writeReady := fun _ => true,
    exceptReady := fun _ => true,
    tcpConnect := fun _ _ => true, newTcpRes := fun fd => 500 + fd }

/-- Like `env0` but the path handler and stream duplication always fail and
TCP connections are refused. -/
def envFail : Env :=
  { handlerOpen := fun _ _ => none,
    dupStream := fun _ _ => none,
    readRet := fun r => r, writeRet := fun r => r, seekRet := fun r => r,
    fstatRet := fun r => r, getdentsRet := fun r => r, isattyRet := fun r => r,
    fcntlRet := fun r => r, ioctlRet := fun r => r,
    readReady := fun _ => false, writeReady := fun _ => false,
    exceptReady := fun _ => false,
    tcpConnect := fun _ _ => false, newTcpRes := fun fd => 500 + fd }

/-- A table with two live streams, for exercising `dup2` onto an occupied
target. -/
def c2St : FsState :=
  { streams := [(3, Slot.str 10), (4, Slot.str 20)],
    paths := [], hosts := [], addrs := [], firstUnusedAddr := 0 }

/-- A table with one live stream, for exercising `dup2` onto an absent
target. -/
def c10St : FsState :=
  { streams := [(3, Slot.str 10)],
    paths := [], hosts := [], addrs := [], firstUnusedAddr := 0 }

/-- A table with two live streams on descriptors 0 and 1, for the select
witnesses. -/
def selSt : FsState :=
  { streams := [(0, Slot.str 0), (1, Slot.str 1)],
    paths := [], hosts := [], addrs := [], firstUnusedAddr := 0 }

/-! ### Association-list lemmas -/

theorem alookup_ainsert_self {α β : Type} [DecidableEq α]
    (l : List (α × β)) (a : α) (b : β) : alookup (ainsert l a b) a = some b := by
  induction l with
  | nil => simp [ainsert, alookup]
  | cons p t ih =>
    obtain ⟨k, v⟩ := p
    by_cases hk : k = a
    · simp [ainsert, alookup, hk]
    · simp [ainsert, alookup, hk, ih]

theorem alookup_ainsert_ne {α β : Type} [DecidableEq α]
    (l : List (α × β)) (a a2 : α) (b : β) (h : a2 ≠ a) :
    alookup (ainsert l a b) a2 = alookup l a2 := by
  have hne : a ≠ a2 := Ne.symm h
  induction l with
  | nil => simp [ainsert, alookup, hne]
  | cons p t ih =>
    obtain ⟨k, v⟩ := p
    by_cases hk : k = a
    · subst hk
      simp [ainsert, alookup, hne]
    · simp [ainsert, alookup, hk, ih]

theorem aerase_of_alookup_none {α β : Type} [DecidableEq α]
    (l : List (α × β)) (a : α) (h : alookup l a = none) : aerase l a = l := by
  induction l with
  | nil => rfl
  | cons p t ih =>
    obtain ⟨k, v⟩ := p
    by_cases hk : k = a
    · simp [alookup, hk] at h
    · simp [alookup, hk] at h
      simp [aerase, hk, ih h]

theorem aerase_ainsert_of_none {α β : Type} [DecidableEq α]
    (l : List (α × β)) (a : α) (b : β) (h : alookup l a = none) :
    aerase (ainsert l a b) a = l := by
  induction l with
  | nil => simp [ainsert, aerase]
  | cons p t ih =>
    obtain ⟨k, v⟩ := p
    by_cases hk : k = a
    · simp [alookup, hk] at h
    · simp [alookup, hk] at h
      simp [ainsert, aerase, hk, ih h]

theorem alookup_isSome_mem_fst {α β : Type} [DecidableEq α]
    (l : List (α × β)) (a : α) (h : (alookup l a).isSome = true) :
    a ∈ l.map Prod.fst := by
  induction l with
  | nil => simp [alookup] at h
  | cons p t ih =>
    obtain ⟨k, v⟩ := p
    by_cases hk : k = a
    · simp [hk]
    · simp [alookup, hk] at h
      simp [ih h]

theorem forall_ne_of_alookup_none {α β : Type} [DecidableEq α]
    (l : List (α × β)) (a : α) (h : alookup l a = none) :
    ∀ p ∈ l, p.1 ≠ a := by
  induction l with
  | nil => simp
  | cons p t ih =>
    obtain ⟨k, v⟩ := p
    by_cases hk : k = a
    · simp [alookup, hk] at h
    · simp [alookup, hk] at h
      intro q hq
      rcases List.mem_cons.mp hq with h1 | h1
      · rw [h1]
        exact hk
      · exact ih h q h1

theorem alookup_none_of_forall_ne {α β : Type} [DecidableEq α]
    (l : List (α × β)) (a : α) (h : ∀ p ∈ l, p.1 ≠ a) : alookup l a = none := by
  induction l with
  | nil => rfl
  | cons p t ih =>
    obtain ⟨k, v⟩ := p
    have hk : k ≠ a := h (k, v) (by simp)
    simp [alookup, hk]
    exact ih fun q hq => h q (by simp [hq])

/-! ### Allocation: `GetFirstUnusedDescriptor` -/

theorem gfudGo_spec (t : List (Nat × Slot)) :
    ∀ fuel fd, (∃ j, j < fuel ∧ alookup t (fd + j) = none) →
      alookup t (gfudGo t fuel fd) = none ∧ fd ≤ gfudGo t fuel fd ∧
      ∀ k, fd ≤ k → k < gfudGo t fuel fd → (alookup t k).isSome = true := by
  intro fuel
  induction fuel with
  | zero =>
    intro fd h
    obtain ⟨j, hj, _⟩ := h
    omega
  | succ n ih =>
    intro fd h
    by_cases hknow : IsKnowDescriptor t fd
    · have hres : gfudGo t (n + 1) fd = gfudGo t n (fd + 1) := by
        simp [gfudGo, hknow]
      have hfd : (alookup t fd).isSome = true := hknow
      have hex : ∃ j, j < n ∧ alookup t (fd + 1 + j) = none := by
        obtain ⟨j, hj, hnone⟩ := h
        rcases j with _ | j
        · exfalso
          rw [Nat.add_zero] at hnone
          rw [hnone] at hfd
          simp at hfd
        · exact ⟨j, by omega, by rw [show fd + 1 + j = fd + (j + 1) by omega]; exact hnone⟩
      obtain ⟨h1, h2, h3⟩ := ih (fd + 1) hex
      refine ⟨by rw [hres]; exact h1, by rw [hres]; omega, ?_⟩
      intro k hk1 hk2
      rw [hres] at hk2
      by_cases hkfd : k = fd
      · rw [hkfd]; exact hfd
      · exact h3 k (by omega) hk2
    · have hres : gfudGo t (n + 1) fd = fd := by
        simp [gfudGo, hknow]
      have hnone : alookup t fd = none := by
        unfold IsKnowDescriptor at hknow
        simp at hknow
        exact Option.eq_none_of_isNone (by simp [hknow])
      refine ⟨by rw [hres]; exact hnone, by omega, ?_⟩
      intro k hk1 hk2
      omega

theorem exists_unused_in_range (t : List (Nat × Slot)) (fd : Nat) :
    ∃ j, j < t.length + 1 ∧ alookup t (fd + j) = none := by
  by_contra hc
  push_neg at hc
  have hall : ∀ j, j < t.length + 1 → (alookup t (fd + j)).isSome = true := by
    intro j hj
    rcases ho : alookup t (fd + j) with _ | v
    · exact absurd ho (hc j hj)
    · rfl
  have hsub : (Finset.range (t.length + 1)).image (fun j => fd + j) ⊆
      (t.map Prod.fst).toFinset := by
    intro x hx
    simp only [Finset.mem_image, Finset.mem_range] at hx
    obtain ⟨j, hj, hxe⟩ := hx
    rw [List.mem_toFinset]
    rw [← hxe]
    exact alookup_isSome_mem_fst t (fd + j) (hall j hj)
  have hcard1 : ((Finset.range (t.length + 1)).image (fun j => fd + j)).card =
      t.length + 1 := by
    rw [Finset.card_image_of_injective _ (add_right_injective fd)]
    simp
  have hcard2 : (t.map Prod.fst).toFinset.card ≤ t.length := by
    calc (t.map Prod.fst).toFinset.card ≤ (t.map Prod.fst).length :=
          List.toFinset_card_le _
      _ = t.length := by simp
  have := Finset.card_le_card hsub
  omega

theorem GetFirstUnusedDescriptor_spec (t : List (Nat × Slot)) :
    alookup t (GetFirstUnusedDescriptor t) = none ∧
    kFileIDOffset ≤ GetFirstUnusedDescriptor t ∧
    ∀ k, kFileIDOffset ≤ k → k < GetFirstUnusedDescriptor t →
      (alookup t k).isSome = true := by
  exact gfudGo_spec t (t.length + 1) kFileIDOffset
    (exists_unused_in_range t kFileIDOffset)

/-! ### C1 -/

/-- C1: for every table state, descriptor allocation (the
`GetFirstUnusedDescriptor` routine shared by `open`, `dup` and `socket`)
returns the smallest integer at or above the fixed offset that is absent from
the table — in particular it is at least 3, so descriptors 0-2 are never
candidates, and it differs from the key of every currently occupied slot —
`socket` marks it reserved, and `open`/`dup` return exactly this descriptor
when the backend cooperates. -/
theorem C1_allocation (st : FsState) :
    3 ≤ GetFirstUnusedDescriptor st.streams ∧
    alookup st.streams (GetFirstUnusedDescriptor st.streams) = none ∧
    (∀ p ∈ st.streams, p.1 ≠ GetFirstUnusedDescriptor st.streams) ∧
    (∀ k, kFileIDOffset ≤ k → k < GetFirstUnusedDescriptor st.streams →
      (alookup st.streams k).isSome = true) ∧
    alookup (socket st).2.streams (socket st).1 = some Slot.reserved ∧
    (∀ env pathname r, st.paths.contains pathname = true →
      env.handlerOpen pathname (GetFirstUnusedDescriptor st.streams) = some r →
      (fsOpen env st pathname).1 = Except.ok (GetFirstUnusedDescriptor st.streams)) ∧
    (∀ env fd r r2, GetStream st.streams fd = StreamPtr.str r →
      env.dupStream r (GetFirstUnusedDescriptor st.streams) = some r2 →
      (dup env st fd).1 = Except.ok (GetFirstUnusedDescriptor st.streams)) := by
  obtain ⟨h1, h2, h3⟩ := GetFirstUnusedDescriptor_spec st.streams
  refine ⟨h2, h1, forall_ne_of_alookup_none st.streams _ h1, h3, ?_, ?_, ?_⟩
  · simp [socket, AddFileStream, alookup_ainsert_self]
  · intro env pathname r hc hh
    have hmem : pathname ∈ st.paths := by simpa using hc
    simp [fsOpen, hmem, hh]
  · intro env fd r r2 hs hd
    simp [dup, hs, hd]

/-- C1 witness: on the concrete table `demoSt` the allocator skips the
occupied descriptors 0-3 (descriptor 3 is occupied, as the theorem's
minimality conjunct demands) and `socket` reserves the allocated slot. -/
theorem C1_allocation_witness :
    alookup demoSt.streams (GetFirstUnusedDescriptor demoSt.streams) = none ∧
    (alookup demoSt.streams 3).isSome = true ∧
    alookup (socket demoSt).2.streams (socket demoSt).1 = some Slot.reserved := by
  refine ⟨(C1_allocation demoSt).2.1, ?_, (C1_allocation demoSt).2.2.2.2.1⟩
  exact (C1_allocation demoSt).2.2.2.1 3 (by decide) (by decide)

/-! ### C5: `open` failure paths leave the table unchanged -/

/-- C5: `open` on an unregistered path fails with no-such-entry, and `open` on
a registered path whose handler declines fails with access-denied after
releasing the reserved descriptor; in both cases the state after the call
equals the state before it. -/
theorem C5_open_failure (env : Env) (st : FsState) (pathname : String) :
    (st.paths.contains pathname = false →
      fsOpen env st pathname = (Except.error Errno.ENOENT, st)) ∧
    (st.paths.contains pathname = true →
      env.handlerOpen pathname (GetFirstUnusedDescriptor st.streams) = none →
      fsOpen env st pathname = (Except.error Errno.EACCES, st)) := by
  constructor
  · intro hc
    have hnm : pathname ∉ st.paths := by simpa using hc
    simp [fsOpen, hnm]
  · intro hc hh
    have hmem : pathname ∈ st.paths := by simpa using hc
    have h1 := (GetFirstUnusedDescriptor_spec st.streams).1
    simp [fsOpen, hmem, hh, AddFileStream, RemoveFileStream,
      aerase_ainsert_of_none _ _ _ h1]

/-- C5 witness: concrete unregistered path, and a registered path with a
refusing handler, both returning the unchanged `demoSt`. -/
theorem C5_open_failure_witness :
    fsOpen env0 demoSt "/nope" = (Except.error Errno.ENOENT, demoSt) ∧
    fsOpen envFail demoSt "/dev/null" = (Except.error Errno.EACCES, demoSt) :=
  ⟨(C5_open_failure env0 demoSt "/nope").1 (by decide),
   (C5_open_failure envFail demoSt "/dev/null").2 (by decide) (by decide)⟩

/-! ### C6: operations on reserved / bad-sentinel / absent descriptors -/

/-- C6: on a descriptor whose slot is reserved or holds the bad sentinel,
read, write, seek, fstat, getdents, isatty, fcntl, ioctl and dup all fail
with bad-descriptor leaving the state unchanged, while close still removes
the slot (without any stream close/release); close on an absent descriptor
fails with bad-descriptor and leaves the state unchanged under repeated
calls. -/
theorem C6_dead_descriptor (env : Env) (st : FsState) (fd : Nat) :
    ((alookup st.streams fd = some Slot.reserved ∨
        alookup st.streams fd = some Slot.bad) →
      read env st fd = (Except.error Errno.EBADF, st) ∧
      write env st fd = (Except.error Errno.EBADF, st) ∧
      seek env st fd = (Except.error Errno.EBADF, st) ∧
      fstat env st fd = (Except.error Errno.EBADF, st) ∧
      getdents env st fd = (Except.error Errno.EBADF, st) ∧
      isatty env st fd = (Except.error Errno.EBADF, st) ∧
      fcntl env st fd = (Except.error Errno.EBADF, st) ∧
      ioctl env st fd = (Except.error Errno.EBADF, st) ∧
      dup env st fd = (Except.error Errno.EBADF, st) ∧
      close st fd =
        (Except.ok (), { st with streams := RemoveFileStream st.streams fd }, [])) ∧
    (alookup st.streams fd = none →
      close st fd = (Except.error Errno.EBADF, st, []) ∧
      close (close st fd).2.1 fd = (Except.error Errno.EBADF, st, [])) := by
  constructor
  · intro h
    have hG : GetStream st.streams fd = StreamPtr.null ∨
        GetStream st.streams fd = StreamPtr.bad := by
      rcases h with h | h <;> simp [GetStream, h]
    have hknow : IsKnowDescriptor st.streams fd = true := by
      rcases h with h | h <;> simp [IsKnowDescriptor, h]
    rcases hG with hG | hG <;>
      simp [read, write, seek, fstat, getdents, isatty, fcntl, ioctl, dup,
        close, hG, hknow]
  · intro h
    have hknow : IsKnowDescriptor st.streams fd = false := by
      simp [IsKnowDescriptor, h]
    have h1 : close st fd = (Except.error Errno.EBADF, st, []) := by
      simp [close, hknow]
    refine ⟨h1, ?_⟩
    rw [h1]
    exact h1

/-- C6 witness: on `demoSt`, descriptor 3 holds the bad sentinel (read fails,
close removes the slot) and descriptor 100 is absent (close fails leaving the
state unchanged). -/
theorem C6_dead_descriptor_witness :
    read env0 demoSt 3 = (Except.error Errno.EBADF, demoSt) ∧
    close demoSt 3 =
      (Except.ok (), { demoSt with streams := RemoveFileStream demoSt.streams 3 }, []) ∧
    close demoSt 100 = (Except.error Errno.EBADF, demoSt, []) :=
  ⟨((C6_dead_descriptor env0 demoSt 3).1 (Or.inr (by decide))).1,
   ((C6_dead_descriptor env0 demoSt 3).1 (Or.inr (by decide))).2.2.2.2.2.2.2.2.2,
   ((C6_dead_descriptor env0 demoSt 100).2 (by decide)).1⟩

/-! ### C7: socket descriptors before and after connect -/

/-- C7 counterexample: on the concrete state `demoSt`, `socket()` leaves the
freshly allocated descriptor mapped to the reserved marker (the source stores
`NULL` under the comment "mark descriptor as used"), not to the
`kBadFileStream` sentinel as the claim states. -/
theorem C7_counterexample :
    alookup (socket demoSt).2.streams (socket demoSt).1 = some Slot.reserved ∧
    ¬ alookup (socket demoSt).2.streams (socket demoSt).1 = some Slot.bad := by
  constructor <;> decide

/-- C7 (amended): `socket()` returns a fresh descriptor whose table slot is
reserved — present and mapped to the stored NULL, not to the bad sentinel —
any read or write on it before connect fails with bad-descriptor, and after a
successful connect the same slot is bound to the network-backend stream. -/
theorem C7_socket_lifecycle (env : Env) (st : FsState) (addr port : Nat)
    (hconn : ∀ host, env.tcpConnect host port = true) :
    alookup st.streams (socket st).1 = none ∧
    alookup (socket st).2.streams (socket st).1 = some Slot.reserved ∧
    read env (socket st).2 (socket st).1 = (Except.error Errno.EBADF, (socket st).2) ∧
    write env (socket st).2 (socket st).1 = (Except.error Errno.EBADF, (socket st).2) ∧
    alookup (connect env (socket st).2 (socket st).1 addr port).2.1.streams
        (socket st).1 = some (Slot.str (env.newTcpRes (socket st).1)) := by
  obtain ⟨h1, h2, h3⟩ := GetFirstUnusedDescriptor_spec st.streams
  have hres : alookup (socket st).2.streams (socket st).1 = some Slot.reserved := by
    simp [socket, AddFileStream, alookup_ainsert_self]
  have hG : GetStream (socket st).2.streams (socket st).1 = StreamPtr.null := by
    simp [GetStream, hres]
  refine ⟨h1, hres, by simp [read, hG], by simp [write, hG], ?_⟩
  have hn : (alookup (socket st).2.streams (socket st).1).isNone = false := by
    simp [hres]
  simp [connect, hn, hconn, AddFileStream, alookup_ainsert_self]

/-- C7 witness: instantiation of the amended socket lifecycle on `demoSt`
with the always-connecting environment `env0`. -/
theorem C7_socket_lifecycle_witness :
    alookup (socket demoSt).2.streams (socket demoSt).1 = some Slot.reserved ∧
    read env0 (socket demoSt).2 (socket demoSt).1 =
      (Except.error Errno.EBADF, (socket demoSt).2) ∧
    alookup (connect env0 (socket demoSt).2 (socket demoSt).1 0 22).2.1.streams
        (socket demoSt).1 = some (Slot.str (env0.newTcpRes (socket demoSt).1)) :=
  ⟨(C7_socket_lifecycle env0 demoSt 0 22 (fun _ => rfl)).2.1,
   (C7_socket_lifecycle env0 demoSt 0 22 (fun _ => rfl)).2.2.1,
   (C7_socket_lifecycle env0 demoSt 0 22 (fun _ => rfl)).2.2.2.2⟩

/-! ### C8: connect failure -/

/-- C8: `connect` on a present descriptor resolves the address through the
address-to-name map (symbolic name on a hit, `inet_ntoa` formatting on a
miss); when the backend refuses, the call fails with connection-refused, the
partially constructed backend is released without being bound, and the state
— in particular the descriptor's table entry — is unchanged. -/
theorem C8_connect_refused (env : Env) (st : FsState) (fd addr port : Nat)
    (hpresent : (alookup st.streams fd).isSome = true)
    (hrefuse : ∀ host, env.tcpConnect host port = false) :
    connect env st fd addr port =
      (Except.error Errno.ECONNREFUSED, st,
        [Ev.connectAttempt
            (match alookup st.addrs addr with
             | some name => name
             | none => inetNtoa addr) port,
         Ev.released (env.newTcpRes fd)]) ∧
    (∀ name, alookup st.addrs addr = some name →
      connect env st fd addr port =
        (Except.error Errno.ECONNREFUSED, st,
          [Ev.connectAttempt name port, Ev.released (env.newTcpRes fd)])) ∧
    (alookup st.addrs addr = none →
      connect env st fd addr port =
        (Except.error Errno.ECONNREFUSED, st,
          [Ev.connectAttempt (inetNtoa addr) port, Ev.released (env.newTcpRes fd)])) := by
  have hn : (alookup st.streams fd).isNone = false := by
    rcases ho : alookup st.streams fd with _ | v
    · rw [ho] at hpresent
      simp at hpresent
    · simp
  have hmain : connect env st fd addr port =
      (Except.error Errno.ECONNREFUSED, st,
        [Ev.connectAttempt
            (match alookup st.addrs addr with
             | some name => name
             | none => inetNtoa addr) port,
         Ev.released (env.newTcpRes fd)]) := by
    simp [connect, hn, hrefuse]
  refine ⟨hmain, ?_, ?_⟩
  · intro name hname
    rw [hmain, hname]
  · intro hnone
    rw [hmain, hnone]

/-- C8 witness: refused connect on `demoSt` descriptor 1 with the pre-seeded
loopback address resolving to "localhost". -/
theorem C8_connect_refused_witness :
    connect envFail demoSt 1 16777343 22 =
      (Except.error Errno.ECONNREFUSED, demoSt,
        [Ev.connectAttempt "localhost" 22, Ev.released (envFail.newTcpRes 1)]) :=
  (C8_connect_refused envFail demoSt 1 16777343 22 (by decide)
    (fun _ => rfl)).2.1 "localhost" (by decide)

/-! ### C2 and C10: the inverted branch of `dup2` -/

/-- C2: code-bug evidence.  `dup2(3, 4)` on a table where descriptor 4 is
bound to a live stream (resource 20) returns success, rebinds descriptor 4 to
a duplicate of the source, and performs no close/release of the old target
stream: the close-existing-target branch is guarded by the inverted test
`!new_stream`, so an occupied target is silently overwritten and its stream
leaked, contradicting the claim that it is first closed and released. -/
theorem C2_dup2_leaks_occupied_target :
    dup2 env0 c2St 3 4 =
      (Dup2Res.ok, { c2St with streams := [(3, Slot.str 10), (4, Slot.str 10)] }, []) ∧
    Ev.closed 20 ∉ (dup2 env0 c2St 3 4).2.2 ∧
    Ev.released 20 ∉ (dup2 env0 c2St 3 4).2.2 := by
  refine ⟨by decide, by decide, by decide⟩

/-- C10: code-bug evidence.  `dup2(3, 100)` with descriptor 100 absent takes
the `else if (!new_stream)` branch, whose body invokes `close()` (then
`release()`) through the null stream handle and `RemoveFileStream` on the
absent slot, violating that function's own presence assertion; the embedding
records this as the `nullCall` outcome with the `nullClose` event. -/
theorem C10_dup2_null_call :
    dup2 env0 c10St 3 100 = (Dup2Res.nullCall, c10St, [Ev.nullClose]) := by
  decide

/-! ### Readiness multiplexer lemmas -/

theorem FDISSET_FDCLR (fds : List Bool) (i j : Nat) :
    FDISSET (FDCLR fds i) j = if j = i then false else FDISSET fds j := by
  induction fds generalizing i j with
  | nil => simp [FDCLR, FDISSET]
  | cons b t ih =>
    cases i with
    | zero =>
      cases j with
      | zero => simp [FDCLR, FDISSET, List.set]
      | succ j2 => simp [FDCLR, FDISSET, List.set]
    | succ i2 =>
      cases j with
      | zero => simp [FDCLR, FDISSET, List.set]
      | succ j2 =>
        have := ih i2 j2
        simp only [FDCLR, FDISSET, List.set, List.getD_cons_succ] at this ⊢
        rw [this]
        by_cases hj : j2 = i2
        · simp [hj]
        · simp [hj, fun hc => hj (Nat.succ_injective hc)]

theorem countReadyFrom_congr (t : List (Nat × Slot)) (ready : Nat → Bool)
    (f1 f2 : List Bool) :
    ∀ rem i, (∀ j, i ≤ j → j < i + rem → FDISSET f1 j = FDISSET f2 j) →
      countReadyFrom t ready f1 i rem = countReadyFrom t ready f2 i rem := by
  intro rem
  induction rem with
  | zero => intro i _; rfl
  | succ n ih =>
    intro i h
    have hi : FDISSET f1 i = FDISSET f2 i := h i le_rfl (by omega)
    simp only [countReadyFrom]
    rw [hi, ih (i + 1) (fun j hj1 hj2 => h j (by omega) (by omega))]

theorem isReadyGo_apply_spec (t : List (Nat × Slot)) (ready : Nat → Bool) :
    ∀ rem i nset fds,
      (∀ j, i ≤ j → j < i + rem → FDISSET fds j = true →
        (GetStream t j).isStr = true) →
      (isReadyGo t ready true i rem nset fds).1 =
        ((nset + countReadyFrom t ready fds i rem : Nat) : Int) ∧
      ∀ k, FDISSET (isReadyGo t ready true i rem nset fds).2 k =
        (if i ≤ k ∧ k < i + rem then FDISSET fds k && readyBit t ready k
         else FDISSET fds k) := by
  intro rem
  induction rem with
  | zero =>
    intro i nset fds _
    constructor
    · simp [isReadyGo, countReadyFrom]
    · intro k
      have hk : ¬ (i ≤ k ∧ k < i) := by omega
      simp [isReadyGo, hk]
  | succ n ih =>
    intro i nset fds h
    by_cases hmem : FDISSET fds i = true
    · have hstr : (GetStream t i).isStr = true := h i le_rfl (by omega) hmem
      rcases hG : GetStream t i with _ | _ | r
      · rw [hG] at hstr
        simp [StreamPtr.isStr] at hstr
      · rw [hG] at hstr
        simp [StreamPtr.isStr] at hstr
      · have hrb : readyBit t ready i = ready r := by simp [readyBit, hG]
        by_cases hready : ready r = true
        · have hrec : isReadyGo t ready true i (n + 1) nset fds =
              isReadyGo t ready true (i + 1) n (nset + 1) fds := by
            simp [isReadyGo, hmem, hG, hready]
          obtain ⟨ih1, ih2⟩ := ih (i + 1) (nset + 1) fds
            (fun j hj1 hj2 hj3 => h j (by omega) (by omega) hj3)
          constructor
          · rw [hrec, ih1]
            have hcnt : countReadyFrom t ready fds i (n + 1) =
                1 + countReadyFrom t ready fds (i + 1) n := by
              simp [countReadyFrom, hmem, hrb, hready]
            rw [hcnt]
            push_cast
            ring
          · intro k
            rw [hrec, ih2 k]
            by_cases hk : k = i
            · subst hk
              have c1 : ¬ (k + 1 ≤ k ∧ k < k + 1 + n) := by omega
              have c2 : k ≤ k ∧ k < k + (n + 1) := by omega
              simp [c1, c2, hmem, hrb, hready]
            · by_cases hin : i + 1 ≤ k ∧ k < i + 1 + n
              · have hin2 : i ≤ k ∧ k < i + (n + 1) := by omega
                simp [hin, hin2]
              · have hin2 : ¬ (i ≤ k ∧ k < i + (n + 1)) := by omega
                simp [hin, hin2]
        · have hready2 : ready r = false := by simpa using hready
          have hrec : isReadyGo t ready true i (n + 1) nset fds =
              isReadyGo t ready true (i + 1) n nset (FDCLR fds i) := by
            simp [isReadyGo, hmem, hG, hready2]
          have hbits : ∀ j, i + 1 ≤ j → FDISSET (FDCLR fds i) j = FDISSET fds j := by
            intro j hj
            rw [FDISSET_FDCLR]
            have : ¬ j = i := by omega
            simp [this]
          obtain ⟨ih1, ih2⟩ := ih (i + 1) nset (FDCLR fds i)
            (fun j hj1 hj2 hj3 => h j (by omega) (by omega) (by rw [← hbits j hj1]; exact hj3))
          constructor
          · rw [hrec, ih1]
            have hcg : countReadyFrom t ready (FDCLR fds i) (i + 1) n =
                countReadyFrom t ready fds (i + 1) n :=
              countReadyFrom_congr t ready _ _ n (i + 1)
                (fun j hj1 _ => hbits j hj1)
            rw [hcg]
            have hcnt : countReadyFrom t ready fds i (n + 1) =
                countReadyFrom t ready fds (i + 1) n := by
              simp [countReadyFrom, hmem, hrb, hready2]
            rw [hcnt]
          · intro k
            rw [hrec, ih2 k]
            by_cases hk : k = i
            · subst hk
              have c1 : ¬ (k + 1 ≤ k ∧ k < k + 1 + n) := by omega
              have c2 : k ≤ k ∧ k < k + (n + 1) := by omega
              rw [FDISSET_FDCLR]
              simp [c1, c2, hmem, hrb, hready2]
            · rw [FDISSET_FDCLR]
              simp only [hk, if_false]
              by_cases hin : i + 1 ≤ k ∧ k < i + 1 + n
              · have hin2 : i ≤ k ∧ k < i + (n + 1) := by omega
                simp [hin, hin2]
              · have hin2 : ¬ (i ≤ k ∧ k < i + (n + 1)) := by omega
                simp [hin, hin2]
    · have hmem2 : FDISSET fds i = false := by simpa using hmem
      have hrec : isReadyGo t ready true i (n + 1) nset fds =
          isReadyGo t ready true (i + 1) n nset fds := by
        simp [isReadyGo, hmem2]
      obtain ⟨ih1, ih2⟩ := ih (i + 1) nset fds
        (fun j hj1 hj2 hj3 => h j (by omega) (by omega) hj3)
      constructor
      · rw [hrec, ih1]
        have hcnt : countReadyFrom t ready fds i (n + 1) =
            countReadyFrom t ready fds (i + 1) n := by
          simp [countReadyFrom, hmem2]
        rw [hcnt]
      · intro k
        rw [hrec, ih2 k]
        by_cases hk : k = i
        · subst hk
          have c1 : ¬ (k + 1 ≤ k ∧ k < k + 1 + n) := by omega
          have c2 : k ≤ k ∧ k < k + (n + 1) := by omega
          simp [c1, c2, hmem2]
        · by_cases hin : i + 1 ≤ k ∧ k < i + 1 + n
          · have hin2 : i ≤ k ∧ k < i + (n + 1) := by omega
            simp [hin, hin2]
          · have hin2 : ¬ (i ≤ k ∧ k < i + (n + 1)) := by omega
            simp [hin, hin2]

theorem isReadyGo_apply_dead (t : List (Nat × Slot)) (ready : Nat → Bool) :
    ∀ rem i nset fds,
      (∃ j, i ≤ j ∧ j < i + rem ∧ FDISSET fds j = true ∧
        (GetStream t j = StreamPtr.null ∨ GetStream t j = StreamPtr.bad)) →
      (isReadyGo t ready true i rem nset fds).1 = -1 := by
  intro rem
  induction rem with
  | zero =>
    intro i nset fds h
    obtain ⟨j, h1, h2, _⟩ := h
    omega
  | succ n ih =>
    intro i nset fds h
    obtain ⟨j, hj1, hj2, hj3, hj4⟩ := h
    by_cases hmem : FDISSET fds i = true
    · rcases hG : GetStream t i with _ | _ | r
      · simp [isReadyGo, hmem, hG]
      · simp [isReadyGo, hmem, hG]
      · have hji : ¬ j = i := by
          intro hc
          rw [hc, hG] at hj4
          rcases hj4 with h4 | h4 <;> exact StreamPtr.noConfusion h4
        by_cases hready : ready r = true
        · have hrec : isReadyGo t ready true i (n + 1) nset fds =
              isReadyGo t ready true (i + 1) n (nset + 1) fds := by
            simp [isReadyGo, hmem, hG, hready]
          rw [hrec]
          exact ih (i + 1) (nset + 1) fds ⟨j, by omega, by omega, hj3, hj4⟩
        · have hready2 : ready r = false := by simpa using hready
          have hrec : isReadyGo t ready true i (n + 1) nset fds =
              isReadyGo t ready true (i + 1) n nset (FDCLR fds i) := by
            simp [isReadyGo, hmem, hG, hready2]
          rw [hrec]
          refine ih (i + 1) nset (FDCLR fds i) ⟨j, by omega, by omega, ?_, hj4⟩
          rw [FDISSET_FDCLR]
          simp [hji, hj3]
    · have hmem2 : FDISSET fds i = false := by simpa using hmem
      have hji : ¬ j = i := by
        intro hc
        rw [hc] at hj3
        rw [hj3] at hmem2
        exact Bool.noConfusion hmem2
      have hrec : isReadyGo t ready true i (n + 1) nset fds =
          isReadyGo t ready true (i + 1) n nset fds := by
        simp [isReadyGo, hmem2]
      rw [hrec]
      exact ih (i + 1) nset fds ⟨j, by omega, by omega, hj3, hj4⟩

theorem isReadyGo_check_dead (t : List (Nat × Slot)) (ready : Nat → Bool) :
    ∀ rem i nset fds,
      (∃ j, i ≤ j ∧ j < i + rem ∧ FDISSET fds j = true ∧
        (GetStream t j = StreamPtr.null ∨ GetStream t j = StreamPtr.bad)) →
      (isReadyGo t ready false i rem nset fds).1 ≠ 0 := by
  intro rem
  induction rem with
  | zero =>
    intro i nset fds h
    obtain ⟨j, h1, h2, _⟩ := h
    omega
  | succ n ih =>
    intro i nset fds h
    obtain ⟨j, hj1, hj2, hj3, hj4⟩ := h
    by_cases hmem : FDISSET fds i = true
    · rcases hG : GetStream t i with _ | _ | r
      · simp [isReadyGo, hmem, hG]
      · simp [isReadyGo, hmem, hG]
      · have hji : ¬ j = i := by
          intro hc
          rw [hc, hG] at hj4
          rcases hj4 with h4 | h4 <;> exact StreamPtr.noConfusion h4
        by_cases hready : ready r = true
        · simp [isReadyGo, hmem, hG, hready]
        · have hready2 : ready r = false := by simpa using hready
          have hrec : isReadyGo t ready false i (n + 1) nset fds =
              isReadyGo t ready false (i + 1) n nset fds := by
            simp [isReadyGo, hmem, hG, hready2]
          rw [hrec]
          exact ih (i + 1) nset fds ⟨j, by omega, by omega, hj3, hj4⟩
    · have hmem2 : FDISSET fds i = false := by simpa using hmem
      have hji : ¬ j = i := by
        intro hc
        rw [hc] at hj3
        rw [hj3] at hmem2
        exact Bool.noConfusion hmem2
      have hrec : isReadyGo t ready false i (n + 1) nset fds =
          isReadyGo t ready false (i + 1) n nset fds := by
        simp [isReadyGo, hmem2]
      rw [hrec]
      exact ih (i + 1) nset fds ⟨j, by omega, by omega, hj3, hj4⟩

theorem isReadyGo_check_ready (t : List (Nat × Slot)) (ready : Nat → Bool) :
    ∀ rem i nset fds,
      (∀ j, i ≤ j → j < i + rem → FDISSET fds j = true →
        (GetStream t j).isStr = true) →
      (∃ j, i ≤ j ∧ j < i + rem ∧ FDISSET fds j = true ∧
        readyBit t ready j = true) →
      (isReadyGo t ready false i rem nset fds).1 ≠ 0 := by
  intro rem
  induction rem with
  | zero =>
    intro i nset fds _ h
    obtain ⟨j, h1, h2, _⟩ := h
    omega
  | succ n ih =>
    intro i nset fds hb h
    obtain ⟨j, hj1, hj2, hj3, hj4⟩ := h
    by_cases hmem : FDISSET fds i = true
    · have hstr : (GetStream t i).isStr = true := hb i le_rfl (by omega) hmem
      rcases hG : GetStream t i with _ | _ | r
      · rw [hG] at hstr
        simp [StreamPtr.isStr] at hstr
      · rw [hG] at hstr
        simp [StreamPtr.isStr] at hstr
      · by_cases hready : ready r = true
        · simp [isReadyGo, hmem, hG, hready]
        · have hready2 : ready r = false := by simpa using hready
          have hji : ¬ j = i := by
            intro hc
            rw [hc] at hj4
            simp only [readyBit, hG] at hj4
            rw [hready2] at hj4
            exact Bool.noConfusion hj4
          have hrec : isReadyGo t ready false i (n + 1) nset fds =
              isReadyGo t ready false (i + 1) n nset fds := by
            simp [isReadyGo, hmem, hG, hready2]
          rw [hrec]
          exact ih (i + 1) nset fds
            (fun k hk1 hk2 hk3 => hb k (by omega) (by omega) hk3)
            ⟨j, by omega, by omega, hj3, hj4⟩
    · have hmem2 : FDISSET fds i = false := by simpa using hmem
      have hji : ¬ j = i := by
        intro hc
        rw [hc] at hj3
        rw [hj3] at hmem2
        exact Bool.noConfusion hmem2
      have hrec : isReadyGo t ready false i (n + 1) nset fds =
          isReadyGo t ready false (i + 1) n nset fds := by
        simp [isReadyGo, hmem2]
      rw [hrec]
      exact ih (i + 1) nset fds
        (fun k hk1 hk2 hk3 => hb k (by omega) (by omega) hk3)
        ⟨j, by omega, by omega, hj3, hj4⟩

theorem IsReady_some_fst (t : List (Nat × Slot)) (ready : Nat → Bool)
    (nfds : Nat) (fds : List Bool) (app : Bool) :
    (IsReady t ready nfds (some fds) app).1 = (isReadyGo t ready app 0 nfds 0 fds).1 :=
  rfl

theorem IsReady_some_snd (t : List (Nat × Slot)) (ready : Nat → Bool)
    (nfds : Nat) (fds : List Bool) (app : Bool) :
    (IsReady t ready nfds (some fds) app).2 = some (isReadyGo t ready app 0 nfds 0 fds).2 :=
  rfl

theorem select_eq_err (env : Env) (st : FsState) (nfds : Nat)
    (orf owf oef : Option (List Bool)) (hasTimeout : Bool)
    (hnot : ¬ ((IsReady st.streams env.readReady nfds orf false).1 = 0 ∧
               (IsReady st.streams env.writeReady nfds owf false).1 = 0 ∧
               (IsReady st.streams env.exceptReady nfds oef false).1 = 0 ∧
               hasTimeout = false))
    (hneg : (IsReady st.streams env.readReady nfds orf true).1 < 0 ∨
            (IsReady st.streams env.writeReady nfds owf true).1 < 0 ∨
            (IsReady st.streams env.exceptReady nfds oef true).1 < 0) :
    select env st nfds orf owf oef hasTimeout = SelectResult.err := by
  simp only [select]
  rw [if_neg hnot, if_pos hneg]

theorem select_eq_ret (env : Env) (st : FsState) (nfds : Nat)
    (orf owf oef : Option (List Bool)) (hasTimeout : Bool)
    (hnot : ¬ ((IsReady st.streams env.readReady nfds orf false).1 = 0 ∧
               (IsReady st.streams env.writeReady nfds owf false).1 = 0 ∧
               (IsReady st.streams env.exceptReady nfds oef false).1 = 0 ∧
               hasTimeout = false))
    (hngR : ¬ (IsReady st.streams env.readReady nfds orf true).1 < 0)
    (hngW : ¬ (IsReady st.streams env.writeReady nfds owf true).1 < 0)
    (hngE : ¬ (IsReady st.streams env.exceptReady nfds oef true).1 < 0) :
    select env st nfds orf owf oef hasTimeout =
      SelectResult.ret
        ((IsReady st.streams env.readReady nfds orf true).1 +
         (IsReady st.streams env.writeReady nfds owf true).1 +
         (IsReady st.streams env.exceptReady nfds oef true).1).toNat
        (IsReady st.streams env.readReady nfds orf true).2
        (IsReady st.streams env.writeReady nfds owf true).2
        (IsReady st.streams env.exceptReady nfds oef true).2 := by
  simp only [select]
  rw [if_neg hnot, if_neg (fun h => h.elim hngR (fun h2 => h2.elim hngW hngE))]

/-! ### C3 -/

/-- C3: if any descriptor in any of the three interest sets is absent from
the descriptor table, the whole `select` call fails with bad-descriptor and
the caller receives no partial readiness result, regardless of the readiness
of descriptors in the other sets (set members are assumed not to hold the bad
sentinel, through which the source would make an invalid virtual call). -/
theorem C3_select_dead_descriptor (env : Env) (st : FsState) (nfds : Nat)
    (rfds wfds efds : List Bool) (hasTimeout : Bool)
    (hnbR : ∀ j, j < nfds → FDISSET rfds j = true →
      ¬ alookup st.streams j = some Slot.bad)
    (hnbW : ∀ j, j < nfds → FDISSET wfds j = true →
      ¬ alookup st.streams j = some Slot.bad)
    (hnbE : ∀ j, j < nfds → FDISSET efds j = true →
      ¬ alookup st.streams j = some Slot.bad)
    (habs : ∃ j, j < nfds ∧ alookup st.streams j = none ∧
      (FDISSET rfds j = true ∨ FDISSET wfds j = true ∨ FDISSET efds j = true)) :
    select env st nfds (some rfds) (some wfds) (some efds) hasTimeout =
      SelectResult.err := by
  obtain ⟨j, hj, habs2, hsets⟩ := habs
  have hG : GetStream st.streams j = StreamPtr.null := by
    simp [GetStream, habs2]
  refine select_eq_err env st nfds (some rfds) (some wfds) (some efds) hasTimeout ?_ ?_
  · intro hcontra
    rcases hsets with hs | hs | hs
    · exact isReadyGo_check_dead st.streams env.readReady nfds 0 0 rfds
        ⟨j, by omega, by omega, hs, Or.inl hG⟩
        (by rw [← IsReady_some_fst]; exact hcontra.1)
    · exact isReadyGo_check_dead st.streams env.writeReady nfds 0 0 wfds
        ⟨j, by omega, by omega, hs, Or.inl hG⟩
        (by rw [← IsReady_some_fst]; exact hcontra.2.1)
    · exact isReadyGo_check_dead st.streams env.exceptReady nfds 0 0 efds
        ⟨j, by omega, by omega, hs, Or.inl hG⟩
        (by rw [← IsReady_some_fst]; exact hcontra.2.2.1)
  · rcases hsets with hs | hs | hs
    · refine Or.inl ?_
      rw [IsReady_some_fst, isReadyGo_apply_dead st.streams env.readReady nfds 0 0 rfds
        ⟨j, by omega, by omega, hs, Or.inl hG⟩]
      decide
    · refine Or.inr (Or.inl ?_)
      rw [IsReady_some_fst, isReadyGo_apply_dead st.streams env.writeReady nfds 0 0 wfds
        ⟨j, by omega, by omega, hs, Or.inl hG⟩]
      decide
    · refine Or.inr (Or.inr ?_)
      rw [IsReady_some_fst, isReadyGo_apply_dead st.streams env.exceptReady nfds 0 0 efds
        ⟨j, by omega, by omega, hs, Or.inl hG⟩]
      decide

/-- C3 witness: on `selSt` (descriptors 0 and 1 live), a select whose
exception set names the absent descriptor 2 fails with `err` even though the
read set's member (descriptor 0) is ready. -/
theorem C3_select_dead_descriptor_witness :
    select env0 selSt 3 (some [true, false, false]) (some [])
      (some [false, false, true]) false = SelectResult.err :=
  C3_select_dead_descriptor env0 selSt 3 [true, false, false] []
    [false, false, true] false (by decide) (by decide) (by decide)
    ⟨2, by decide, by decide, by decide⟩

/-! ### C4 -/

/-- C4: when `select` returns successfully (in particular after its deadline
elapses), each of the three input sets is recomputed so that exactly its
ready members remain set (members not ready are cleared, bits beyond the
scanned range untouched), and the return value is the total count of ready
descriptors across the three sets; on deadline expiry with nothing ready this
count is zero rather than an error.  All set members are assumed bound to
live streams. -/
theorem C4_select_success (env : Env) (st : FsState) (nfds : Nat)
    (rfds wfds efds : List Bool) (hasTimeout : Bool)
    (hr : ∀ j, j < nfds → FDISSET rfds j = true →
      (GetStream st.streams j).isStr = true)
    (hw : ∀ j, j < nfds → FDISSET wfds j = true →
      (GetStream st.streams j).isStr = true)
    (he : ∀ j, j < nfds → FDISSET efds j = true →
      (GetStream st.streams j).isStr = true)
    (hgo : hasTimeout = true ∨
      (∃ j, j < nfds ∧
        ((FDISSET rfds j = true ∧ readyBit st.streams env.readReady j = true) ∨
         (FDISSET wfds j = true ∧ readyBit st.streams env.writeReady j = true) ∨
         (FDISSET efds j = true ∧ readyBit st.streams env.exceptReady j = true)))) :
    ∃ r2 w2 e2,
      select env st nfds (some rfds) (some wfds) (some efds) hasTimeout =
        SelectResult.ret
          (countReadyFrom st.streams env.readReady rfds 0 nfds +
           countReadyFrom st.streams env.writeReady wfds 0 nfds +
           countReadyFrom st.streams env.exceptReady efds 0 nfds)
          (some r2) (some w2) (some e2) ∧
      (∀ k, k < nfds →
        FDISSET r2 k = (FDISSET rfds k && readyBit st.streams env.readReady k) ∧
        FDISSET w2 k = (FDISSET wfds k && readyBit st.streams env.writeReady k) ∧
        FDISSET e2 k = (FDISSET efds k && readyBit st.streams env.exceptReady k)) ∧
      (∀ k, nfds ≤ k →
        FDISSET r2 k = FDISSET rfds k ∧
        FDISSET w2 k = FDISSET wfds k ∧
        FDISSET e2 k = FDISSET efds k) := by
  obtain ⟨hvR, hbR⟩ := isReadyGo_apply_spec st.streams env.readReady nfds 0 0 rfds
    (fun j _ hj2 hj3 => hr j (by omega) hj3)
  obtain ⟨hvW, hbW⟩ := isReadyGo_apply_spec st.streams env.writeReady nfds 0 0 wfds
    (fun j _ hj2 hj3 => hw j (by omega) hj3)
  obtain ⟨hvE, hbE⟩ := isReadyGo_apply_spec st.streams env.exceptReady nfds 0 0 efds
    (fun j _ hj2 hj3 => he j (by omega) hj3)
  have hnot : ¬ ((IsReady st.streams env.readReady nfds (some rfds) false).1 = 0 ∧
      (IsReady st.streams env.writeReady nfds (some wfds) false).1 = 0 ∧
      (IsReady st.streams env.exceptReady nfds (some efds) false).1 = 0 ∧
      hasTimeout = false) := by
    intro hcontra
    rcases hgo with hgt | ⟨j, hj, hready⟩
    · rw [hgt] at hcontra
      exact Bool.noConfusion hcontra.2.2.2
    · rcases hready with ⟨h1, h2⟩ | ⟨h1, h2⟩ | ⟨h1, h2⟩
      · exact isReadyGo_check_ready st.streams env.readReady nfds 0 0 rfds
          (fun k _ hk2 hk3 => hr k (by omega) hk3)
          ⟨j, by omega, by omega, h1, h2⟩
          (by rw [← IsReady_some_fst]; exact hcontra.1)
      · exact isReadyGo_check_ready st.streams env.writeReady nfds 0 0 wfds
          (fun k _ hk2 hk3 => hw k (by omega) hk3)
          ⟨j, by omega, by omega, h1, h2⟩
          (by rw [← IsReady_some_fst]; exact hcontra.2.1)
      · exact isReadyGo_check_ready st.streams env.exceptReady nfds 0 0 efds
          (fun k _ hk2 hk3 => he k (by omega) hk3)
          ⟨j, by omega, by omega, h1, h2⟩
          (by rw [← IsReady_some_fst]; exact hcontra.2.2.1)
  have hngR : ¬ (IsReady st.streams env.readReady nfds (some rfds) true).1 < 0 := by
    rw [IsReady_some_fst, hvR]
    omega
  have hngW : ¬ (IsReady st.streams env.writeReady nfds (some wfds) true).1 < 0 := by
    rw [IsReady_some_fst, hvW]
    omega
  have hngE : ¬ (IsReady st.streams env.exceptReady nfds (some efds) true).1 < 0 := by
    rw [IsReady_some_fst, hvE]
    omega
  refine ⟨(isReadyGo st.streams env.readReady true 0 nfds 0 rfds).2,
          (isReadyGo st.streams env.writeReady true 0 nfds 0 wfds).2,
          (isReadyGo st.streams env.exceptReady true 0 nfds 0 efds).2,
          ?_, ?_, ?_⟩
  · rw [select_eq_ret env st nfds (some rfds) (some wfds) (some efds) hasTimeout
      hnot hngR hngW hngE]
    rw [IsReady_some_snd st.streams env.readReady nfds rfds true,
        IsReady_some_snd st.streams env.writeReady nfds wfds true,
        IsReady_some_snd st.streams env.exceptReady nfds efds true]
    congr 1
    rw [IsReady_some_fst st.streams env.readReady nfds rfds true,
        IsReady_some_fst st.streams env.writeReady nfds wfds true,
        IsReady_some_fst st.streams env.exceptReady nfds efds true,
        hvR, hvW, hvE]
    omega
  · intro k hk
    have c : 0 ≤ k ∧ k < 0 + nfds := by omega
    exact ⟨by rw [hbR k, if_pos c], by rw [hbW k, if_pos c], by rw [hbE k, if_pos c]⟩
  · intro k hk
    have c : ¬ (0 ≤ k ∧ k < 0 + nfds) := by omega
    exact ⟨by rw [hbR k, if_neg c], by rw [hbW k, if_neg c], by rw [hbE k, if_neg c]⟩

/-- C4 witness: on `selSt` with everything ready and a timeout present,
select returns the total ready count 2 (descriptor 0 from the read set and
descriptor 1 from the write set). -/
theorem C4_select_success_witness :
    ∃ r2 w2 e2,
      select env0 selSt 2 (some [true, false]) (some [false, true])
        (some [false, false]) true = SelectResult.ret 2 (some r2) (some w2) (some e2) := by
  obtain ⟨r2, w2, e2, hsel, _⟩ := C4_select_success env0 selSt 2 [true, false]
    [false, true] [false, false] true (by decide) (by decide) (by decide) (Or.inl rfl)
  refine ⟨r2, w2, e2, ?_⟩
  rw [hsel]
  congr 1

/-! ### C9: host address table -/

theorem htonl_ne_succ (c : Nat) : htonl c ≠ htonl (c + 1) := by
  intro h
  simp only [htonl] at h
  omega

theorem gethostbyname_hit (st : FsState) (name : String) (a : Nat)
    (h : alookup st.hosts name = some a) :
    gethostbyname st name = (a, st) := by
  simp [gethostbyname, h]

theorem gethostbyname_miss (st : FsState) (name : String)
    (h : alookup st.hosts name = none) :
    gethostbyname st name =
      (htonl st.firstUnusedAddr,
       { st with hosts := ainsert st.hosts name (htonl st.firstUnusedAddr),
                 addrs := ainsert st.addrs (htonl st.firstUnusedAddr) name,
                 firstUnusedAddr := st.firstUnusedAddr + 1 }) := by
  simp [gethostbyname, h]

/-- C9: resolving "localhost" returns the pre-seeded loopback address;
resolution is total by construction (`gethostbyname` always returns an
address); resolving two distinct names absent from the table yields two
distinct synthetic addresses drawn from the incrementing counter; and for
every name the reverse lookup of the resolved address yields the name again,
both directions having been inserted together.  The hypotheses are the host
table's standing invariants: every forward entry has a matching reverse
entry, and "localhost" is pre-seeded with `htonl 0x7F000001`. -/
theorem C9_host_table (st : FsState) (n1 n2 : String)
    (hinv : ∀ name a, alookup st.hosts name = some a →
      alookup st.addrs a = some name)
    (hlocal : alookup st.hosts "localhost" = some (htonl 2130706433))
    (h1 : alookup st.hosts n1 = none) (h2 : alookup st.hosts n2 = none)
    (hne : n1 ≠ n2) :
    (gethostbyname st "localhost").1 = htonl 2130706433 ∧
    (gethostbyname st n1).1 ≠ (gethostbyname (gethostbyname st n1).2 n2).1 ∧
    (∀ name, alookup (gethostbyname st name).2.addrs (gethostbyname st name).1 =
      some name) := by
  refine ⟨?_, ?_, ?_⟩
  · rw [gethostbyname_hit st "localhost" _ hlocal]
  · have e1 := gethostbyname_miss st n1 h1
    have hfst1 : (gethostbyname st n1).1 = htonl st.firstUnusedAddr := by rw [e1]
    have hsnd1 : (gethostbyname st n1).2 =
        { st with hosts := ainsert st.hosts n1 (htonl st.firstUnusedAddr),
                  addrs := ainsert st.addrs (htonl st.firstUnusedAddr) n1,
                  firstUnusedAddr := st.firstUnusedAddr + 1 } := by rw [e1]
    have hl2 : alookup (ainsert st.hosts n1 (htonl st.firstUnusedAddr)) n2 = none := by
      rw [alookup_ainsert_ne st.hosts n1 n2 _ (Ne.symm hne)]
      exact h2
    have e2 := gethostbyname_miss
      { st with hosts := ainsert st.hosts n1 (htonl st.firstUnusedAddr),
                addrs := ainsert st.addrs (htonl st.firstUnusedAddr) n1,
                firstUnusedAddr := st.firstUnusedAddr + 1 } n2 hl2
    have hfst2 : (gethostbyname (gethostbyname st n1).2 n2).1 =
        htonl (st.firstUnusedAddr + 1) := by
      rw [hsnd1, e2]
    rw [hfst1, hfst2]
    exact htonl_ne_succ st.firstUnusedAddr
  · intro name
    rcases ho : alookup st.hosts name with _ | a
    · rw [gethostbyname_miss st name ho]
      exact alookup_ainsert_self st.addrs (htonl st.firstUnusedAddr) name
    · rw [gethostbyname_hit st name a ho]
      exact hinv name a ho

/-- C9 witness: on `demoSt` (pre-seeded "localhost"), resolving "localhost"
returns the loopback, resolving "alpha" then "beta" yields distinct synthetic
addresses, and resolving "gamma" round-trips through the reverse table. -/
theorem C9_host_table_witness :
    (gethostbyname demoSt "localhost").1 = htonl 2130706433 ∧
    (gethostbyname demoSt "alpha").1 ≠
      (gethostbyname (gethostbyname demoSt "alpha").2 "beta").1 ∧
    alookup (gethostbyname demoSt "gamma").2.addrs
      (gethostbyname demoSt "gamma").1 = some "gamma" := by
  obtain ⟨a, b, c⟩ := C9_host_table demoSt "alpha" "beta"
    (by
      intro name addr h
      simp only [demoSt, alookup] at h
      by_cases hn : "localhost" = name
      · rw [if_pos hn] at h
        injection h with h2
        subst hn
        rw [← h2]
        decide
      · rw [if_neg hn] at h
        exact Option.noConfusion h)
    (by decide) (by decide) (by decide) (by decide)
  exact ⟨a, b, c "gamma"⟩

end SshClient
